import Mathlib

/-!
Verification of the scheduling core of the `container-orchestrator` gateway.

This file gives a shallow embedding, in Lean 4, of the scheduling-relevant
portion of the Go sources:

* `internal/gateway/orchestrator.go` — the capacity registry
  (`WorkerInfo`, `StartWorker`, `GetAllWorkers`, `GetWorkerByCore`,
  `UpdateWorkerCPU`, `GetNextAvailableCore`, `GetWorkerCount`);
* the scheduler (`findSuitableWorker`, `scheduleJobDirect`,
  `scheduleJobWithQueue`, `tryProcessQueue`, `checkProactiveSpawn` and the
  queue constants `MAX_QUEUE_SIZE`, `QUEUE_TIMEOUT`);
* the CPU estimator (`EstimateCPUUsage` clamps the client's `cpu_load`
  to the interval `[0, 100]`).

Modelling conventions, chosen to stay faithful to the Go code:

* Go `float64` CPU percentages and timestamps are modelled as `ℚ`
  (exact arithmetic; the spec's "within floating epsilon" becomes exact
  equality).
* The registry's Go map `map[int]*WorkerInfo` is modelled as a list of
  `WorkerInfo` records keyed by their `coreID` field.  Go leaves map
  iteration order unspecified (and deliberately randomises it), so the order
  of the list models one possible iteration order of the map; any
  permutation of the same entries models the same reachable registry.
* Go pointers `*WorkerInfo`: a worker record is allocated once per core and
  never re-allocated, so a pointer is identified with the `coreID` it was
  allocated for.  `GetAllWorkers` in Go copies the slice of *pointers*, so a
  snapshot is modelled as the list of core ids, and dereferencing a snapshot
  element reads the current registry record for that core.
* Effects of the outside world are oracle parameters: the Docker
  create/start calls (`dockerOk`, container id `cid`), the HTTP dispatch
  outcome (`Except String JobResponse`), the wall clock (`now : ℚ`), and
  whether a blocked requeue send completes within its 1 s grace
  (`requeueOk`).  The mutex-serialized sections of the Go code become
  ordinary sequential state passing.
-/

namespace ContainerOrchestrator

/-- WorkerInfo, from `orchestrator.go`: state of one running worker
container.  `currentCPU` is the reserved CPU percentage the scheduler
accounts against this worker. -/
structure WorkerInfo where
  coreID : Nat
  containerID : String
  hostPort : Int
  currentCPU : ℚ
  lastHeartbeat : ℚ
  isHealthy : Bool
deriving DecidableEq

/-- Orchestrator, from `orchestrator.go`: the capacity registry.  The Go
field `workers : map[int]*WorkerInfo` is modelled as a list of records; the
list order models the (unspecified) Go map iteration order. -/
structure Orchestrator where
  workers : List WorkerInfo
  workerBasePort : Int
deriving DecidableEq

/-- Valid core ids, from the `coreMaps` topology table in `orchestrator.go`
(cores 1, 2, 3; core 0 is reserved for the gateway). -/
def validCore (coreID : Nat) : Bool :=
  coreID = 1 || coreID = 2 || coreID = 3

/-- GetWorkerByCore, from `orchestrator.go`: look up the worker on a core. -/
def GetWorkerByCore (o : Orchestrator) (coreID : Nat) : Option WorkerInfo :=
  o.workers.find? (fun w => w.coreID = coreID)

/-- GetAllWorkers, from `orchestrator.go`: returns the slice of worker
pointers in map iteration order.  The records themselves are shared with the
registry (the Go slice holds `*WorkerInfo`); value-level reads through it
are only used while the scheduler mutex is held, which the sequential model
reflects. -/
def GetAllWorkers (o : Orchestrator) : List WorkerInfo :=
  o.workers

/-- GetAllWorkers, pointer view: the Go return type is `[]*WorkerInfo`, a
fresh slice whose elements are pointers into the registry's records.  A
pointer is identified with the core id of the record it refers to. -/
def GetAllWorkersPtrs (o : Orchestrator) : List Nat :=
  o.workers.map (fun w => w.coreID)

/-- Dereference of a worker pointer (`p.CurrentCPU` in Go): reads the
current registry record for that core. -/
def derefCPU (o : Orchestrator) (p : Nat) : Option ℚ :=
  (GetWorkerByCore o p).map (fun w => w.currentCPU)

/-- UpdateWorkerCPU, from `orchestrator.go` lines 151-159: if the core has a
worker, assign `CurrentCPU := cpuPercent` and refresh `LastHeartbeat`;
otherwise do nothing.  Note the Go code assigns the argument verbatim — it
does not clamp at zero. -/
def UpdateWorkerCPU (o : Orchestrator) (coreID : Nat) (cpuPercent : ℚ)
    (now : ℚ) : Orchestrator :=
  { o with workers := o.workers.map (fun w =>
      if w.coreID = coreID then
        { w with currentCPU := cpuPercent, lastHeartbeat := now }
      else w) }

/-- StartWorker, from `orchestrator.go` lines 66-127: validate the core id,
fail if the core already has a worker, ask Docker to create and start the
container (`dockerOk` is the oracle for the Docker daemon, `cid` the
container id it returns), then record the new worker with `CurrentCPU = 0`.
The registry state is returned unchanged on every error path. -/
def StartWorker (o : Orchestrator) (coreID : Nat) (dockerOk : Bool)
    (cid : String) (now : ℚ) : Orchestrator × Except String String :=
  if ¬ validCore coreID then
    (o, .error "invalid core ID")
  else if (GetWorkerByCore o coreID).isSome then
    (o, .error "core already has worker")
  else if ¬ dockerOk then
    (o, .error "container creation failed")
  else
    let w : WorkerInfo :=
      { coreID := coreID
        containerID := cid
        hostPort := o.workerBasePort + coreID
        currentCPU := 0
        lastHeartbeat := now
        isHealthy := true }
    ({ o with workers := o.workers ++ [w] }, .ok cid)

/-- GetNextAvailableCore, from `orchestrator.go` lines 162-173: the first
core id in 1, 2, 3 with no worker, or an error when all are occupied. -/
def GetNextAvailableCore (o : Orchestrator) : Except String Nat :=
  if (GetWorkerByCore o 1).isNone then .ok 1
  else if (GetWorkerByCore o 2).isNone then .ok 2
  else if (GetWorkerByCore o 3).isNone then .ok 3
  else .error "no available cores"

/-- GetWorkerCount, from `orchestrator.go`. -/
def GetWorkerCount (o : Orchestrator) : Nat :=
  o.workers.length

/-- EstimateCPUUsage, from the estimator: the client's `cpu_load` clamped to
`[0, 100]`. -/
def EstimateCPUUsage (cpuLoad : ℚ) : ℚ :=
  if cpuLoad < 0 then 0
  else if cpuLoad > 100 then 100
  else cpuLoad

/-- Config, from `pkg/config/config.go`, restricted to the fields the
scheduling core reads. -/
structure Config where
  maxCPUThreshold : ℚ
  preSpawnThreshold : ℚ
deriving DecidableEq

/-- The default configuration (`MAX_CPU_THRESHOLD = 80`,
`PRESPAWN_THRESHOLD = 70`). -/
def defaultConfig : Config :=
  { maxCPUThreshold := 80, preSpawnThreshold := 70 }

/-- Loop body of findSuitableWorker (scheduler lines 343-353): scan the
worker slice keeping the eligible worker with the lowest `CurrentCPU` seen
so far.  `lowest` starts at 101 ("above 100%"); a worker replaces the
current best only when it passes the threshold check and its `CurrentCPU`
is strictly below `lowest`. -/
def findSuitableWorkerLoop (thr est : ℚ) :
    List WorkerInfo → Option WorkerInfo → ℚ → Option WorkerInfo
  | [], best, _ => best
  | w :: rmaining, best, lowest =>
    if w.currentCPU + est ≤ thr ∧ w.currentCPU < lowest then
      findSuitableWorkerLoop thr est rmaining (some w) w.currentCPU
    else
      findSuitableWorkerLoop thr est rmaining best lowest

/-- findSuitableWorker, from the scheduler (lines 332-356): locate a worker
whose projected CPU `CurrentCPU + estimatedCPU` stays within
`MaxCPUThreshold`, preferring the lowest current CPU. -/
def findSuitableWorker (cfg : Config) (o : Orchestrator)
    (estimatedCPU : ℚ) : Option WorkerInfo :=
  let workers := GetAllWorkers o
  if workers.isEmpty then none
  else findSuitableWorkerLoop cfg.maxCPUThreshold estimatedCPU workers none 101

/-- JobResponse, from `pkg/protocol/types.go`, restricted to the fields the
scheduler inspects. -/
structure JobResponse where
  jobID : String
  workerID : String
  result : ℚ
deriving DecidableEq

/-- Queue constants from the scheduler (lines 20-24): `MAX_QUEUE_SIZE`. -/
def MAX_QUEUE_SIZE : Nat := 100

/-- Queue constants from the scheduler (lines 20-24): `QUEUE_TIMEOUT`, in
seconds. -/
def QUEUE_TIMEOUT : ℚ := 30

/-- QueuedJob, from the scheduler (lines 27-33): a pending job together with
its single-shot result sink.  The sink (the pair of capacity-one channels
`responseCh`/`errorCh`) is identified by `jobId`; the request payload plays
no role in scheduling decisions and is omitted. -/
structure QueuedJob where
  jobId : Nat
  enqueuedAt : ℚ
  estimatedCPU : ℚ
deriving DecidableEq

/-- The reservation commit of `scheduleJobDirect` (scheduler lines 90-124)
before the dispatch: find a suitable worker, otherwise spawn one on the next
free core (any failure aborts with an error and leaves the registry
unchanged), then reserve by `UpdateWorkerCPU(coreID, CurrentCPU +
estimatedCPU)` while still holding the scheduling mutex.  Returns the
post-commit registry and the reserving core. -/
def reserveDirect (cfg : Config) (o : Orchestrator) (est : ℚ)
    (dockerOk : Bool) (cid : String) (now : ℚ) :
    Except String (Orchestrator × Nat) :=
  match findSuitableWorker cfg o est with
  | some w =>
    .ok (UpdateWorkerCPU o w.coreID (w.currentCPU + est) now, w.coreID)
  | none =>
    match GetNextAvailableCore o with
    | .error e => .error ("cannot spawn worker: " ++ e)
    | .ok coreID =>
      match StartWorker o coreID dockerOk cid now with
      | (_, .error e) => .error ("failed to start worker: " ++ e)
      | (o1, .ok _) =>
        match GetWorkerByCore o1 coreID with
        | none => .error "worker spawned but not found in state"
        | some w =>
          .ok (UpdateWorkerCPU o1 w.coreID (w.currentCPU + est) now, w.coreID)

/-- The reservation commit of `scheduleJobWithQueue` (scheduler lines
158-176): same placement as the direct path, but every spawn failure is
swallowed (`worker` stays `nil`) and the job falls through to the queue,
reported here as `none`. -/
def reserveWithQueue (cfg : Config) (o : Orchestrator) (est : ℚ)
    (dockerOk : Bool) (cid : String) (now : ℚ) :
    Option (Orchestrator × Nat) :=
  match findSuitableWorker cfg o est with
  | some w =>
    some (UpdateWorkerCPU o w.coreID (w.currentCPU + est) now, w.coreID)
  | none =>
    match GetNextAvailableCore o with
    | .error _ => none
    | .ok coreID =>
      match StartWorker o coreID dockerOk cid now with
      | (_, .error _) => none
      | (o1, .ok _) =>
        match GetWorkerByCore o1 coreID with
        | none => none
        | some w =>
          some (UpdateWorkerCPU o1 w.coreID (w.currentCPU + est) now, w.coreID)

/-- checkProactiveSpawn, from the scheduler (lines 400-433): when every
worker's `CurrentCPU` has reached `PreSpawnThreshold`, try to start one more
worker on the next free core; all failures are logged and swallowed. -/
def checkProactiveSpawn (cfg : Config) (o : Orchestrator) (dockerOk : Bool)
    (cid : String) (now : ℚ) : Orchestrator :=
  if (GetAllWorkers o).isEmpty then o
  else if (GetAllWorkers o).all
      (fun w => ¬ w.currentCPU < cfg.preSpawnThreshold) then
    match GetNextAvailableCore o with
    | .error _ => o
    | .ok coreID => (StartWorker o coreID dockerOk cid now).1
  else o

/-- scheduleJobDirect, from the scheduler (lines 88-149): reserve, dispatch
(`dres` is the oracle for `executeJobOnWorker`), and on dispatch failure
roll the reservation back with an explicit clamp at zero (lines 132-137);
on success decay the reservation (line 143, no clamp) and run the pre-spawn
check.  The `CurrentCPU` reads at lines 133 and 143 go through the worker
pointer, i.e. they read the live post-commit registry value. -/
def scheduleJobDirect (cfg : Config) (o : Orchestrator) (est : ℚ)
    (dockerOk : Bool) (cid : String) (now : ℚ)
    (dres : Except String JobResponse) (spawnOk : Bool) (spawnCid : String) :
    Orchestrator × Except String JobResponse :=
  match reserveDirect cfg o est dockerOk cid now with
  | .error e => (o, .error e)
  | .ok (o1, coreID) =>
    let live := (derefCPU o1 coreID).getD 0
    match dres with
    | .error e =>
      (UpdateWorkerCPU o1 coreID (max 0 (live - est)) now, .error e)
    | .ok resp =>
      let o2 := UpdateWorkerCPU o1 coreID (live - est) now
      (checkProactiveSpawn cfg o2 spawnOk spawnCid now, .ok resp)

/-- The immediate branch of `scheduleJobWithQueue` (scheduler lines
156-185): when a worker was reserved, dispatch, decay the reservation
unconditionally (line 182, success and failure alike, no clamp), run the
pre-spawn check and return the dispatch outcome verbatim.  `none` means no
worker was available and the job falls through to the queue. -/
def scheduleImmediateWithQueue (cfg : Config) (o : Orchestrator) (est : ℚ)
    (dockerOk : Bool) (cid : String) (now : ℚ)
    (dres : Except String JobResponse) (spawnOk : Bool) (spawnCid : String) :
    Option (Orchestrator × Except String JobResponse) :=
  match reserveWithQueue cfg o est dockerOk cid now with
  | none => none
  | some (o1, coreID) =>
    let live := (derefCPU o1 coreID).getD 0
    let o2 := UpdateWorkerCPU o1 coreID (live - est) now
    some (checkProactiveSpawn cfg o2 spawnOk spawnCid now, dres)

/-- The enqueue step of `scheduleJobWithQueue` (scheduler lines 199-212):
`select { case s.jobQueue <- queuedJob: ... default: error }` on the
buffered channel of capacity `MAX_QUEUE_SIZE` — a non-blocking offer that
succeeds exactly when the queue holds fewer than `MAX_QUEUE_SIZE` jobs and
otherwise immediately reports the queue as full. -/
def offerToQueue (q : List QueuedJob) (job : QueuedJob) :
    Except String (List QueuedJob) :=
  if q.length < MAX_QUEUE_SIZE then .ok (q ++ [job])
  else .error "job queue full"

/-- Observable per-job outcomes of one drain tick of `tryProcessQueue`:
a queue-expiry error signal (line 245), a hand-off to an asynchronous
dispatch on a reserved core (lines 253-274), or a requeue failure signal
(line 289). -/
inductive DrainEvent where
  | expired (jobId : Nat)
  | dispatched (jobId : Nat) (coreID : Nat)
  | requeueFailed (jobId : Nat)
deriving DecidableEq

/-- tryProcessQueue, from the scheduler (lines 236-301): one drain tick.
Dequeue jobs one at a time.  An expired head (`now - enqueuedAt >
QUEUE_TIMEOUT`) is signalled with a queue-expired error and the loop
continues with the next job.  A head with a suitable worker gets its CPU
reserved under the mutex and is handed to an asynchronous dispatch, and the
loop continues.  A head with no suitable worker is put back (the requeue
goroutine sends it to the back of the channel; `requeueOk` is the oracle
for whether that send completes within the 1 s grace, otherwise the job is
signalled with a requeue failure) and the tick stops, processing no further
jobs.  Returns the registry after the tick's reservation commits, the queue
contents after the tick, and the events of the tick. -/
def tryProcessQueue (cfg : Config) (o : Orchestrator)
    (q : List QueuedJob) (now : ℚ) (requeueOk : Bool) :
    Orchestrator × List QueuedJob × List DrainEvent :=
  match q with
  | [] => (o, [], [])
  | job :: rmaining =>
    if now - job.enqueuedAt > QUEUE_TIMEOUT then
      let r := tryProcessQueue cfg o rmaining now requeueOk
      (r.1, r.2.1, .expired job.jobId :: r.2.2)
    else
      match findSuitableWorker cfg o job.estimatedCPU with
      | some w =>
        let o1 :=
          UpdateWorkerCPU o w.coreID (w.currentCPU + job.estimatedCPU) now
        let r := tryProcessQueue cfg o1 rmaining now requeueOk
        (r.1, r.2.1, .dispatched job.jobId w.coreID :: r.2.2)
      | none =>
        if requeueOk then (o, rmaining ++ [job], [])
        else (o, rmaining, [.requeueFailed job.jobId])

/-- The asynchronous dispatch completion spawned by `tryProcessQueue`
(scheduler lines 263-274): run the job, decay the reservation through the
live worker pointer (line 265, no clamp), signal the sink with exactly one
of response or error, and run the pre-spawn check. -/
def drainDispatchComplete (cfg : Config) (o : Orchestrator) (coreID : Nat)
    (est : ℚ) (now : ℚ) (dres : Except String JobResponse) (spawnOk : Bool)
    (spawnCid : String) : Orchestrator × Except String JobResponse :=
  let live := (derefCPU o coreID).getD 0
  let o1 := UpdateWorkerCPU o coreID (live - est) now
  (checkProactiveSpawn cfg o1 spawnOk spawnCid now, dres)

/-- Lifecycle phases of one queued job, abstracted from the scheduler.  A
job is `queued` while it sits in the `jobQueue` channel, `dispatching` while
a dispatch goroutine owns it (lines 263-274), `requeueing` while the requeue
goroutine owns it (lines 283-291), and `signaled` once its single-shot sink
(`responseCh`/`errorCh`) has been written. -/
inductive JobPhase where
  | queued
  | dispatching
  | requeueing
  | signaled
deriving DecidableEq

/-- One ownership transfer of a queued job, labelled with whether the step
writes the job's result sink.  Each constructor is one code path of the
scheduler: `expire` is the queue-timeout signal (line 245), `place` the
hand-off to an asynchronous dispatch after a reservation (lines 253-274),
`dispatchDone` the dispatch goroutine writing exactly one of
`errorCh`/`responseCh` (lines 267-271), `requeueMiss` the placement miss
(lines 278-283), `requeuePut` a successful requeue send (line 285), and
`requeueFail` the requeue grace-period expiry signal (lines 287-289). -/
inductive jobStep : JobPhase → Bool → JobPhase → Prop where
  | expire : jobStep .queued true .signaled
  | place : jobStep .queued false .dispatching
  | dispatchDone : jobStep .dispatching true .signaled
  | requeueMiss : jobStep .queued false .requeueing
  | requeuePut : jobStep .requeueing false .queued
  | requeueFail : jobStep .requeueing true .signaled

/-- A run of the job lifecycle, counting how many steps wrote the sink. -/
inductive jobRun : JobPhase → Nat → JobPhase → Prop where
  | refl : jobRun p 0 p
  | step : jobStep p e q → jobRun q n r → jobRun p (cond e 1 0 + n) r

/-- Number of sink writes still owed to a job in a given phase. -/
def phaseW : JobPhase → Nat
  | .signaled => 0
  | _ => 1

/-- Number of jobs with a given sink id in a queue. -/
def countQ (q : List QueuedJob) (id : Nat) : Nat :=
  (q.filter (fun j => j.jobId = id)).length

/-- The sink id a drain event disposes of. -/
def eventJobId : DrainEvent → Nat
  | .expired id => id
  | .dispatched id _ => id
  | .requeueFailed id => id

/-- Number of drain events disposing of a given sink id. -/
def countE (evs : List DrainEvent) (id : Nat) : Nat :=
  (evs.filter (fun ev => eventJobId ev = id)).length

/-! ### Helper lemmas about the registry -/

/-- The per-record function applied by `UpdateWorkerCPU` never changes a
record's core id. -/
lemma updateWorkerCPU_keys (o : Orchestrator) (c : Nat) (v t : ℚ) :
    (UpdateWorkerCPU o c v t).workers.map (fun w => w.coreID)
      = o.workers.map (fun w => w.coreID) := by
  simp only [UpdateWorkerCPU, List.map_map]
  refine List.map_congr_left (fun w _ => ?_)
  by_cases h : w.coreID = c <;> simp [h]

/-- List form of the `UpdateWorkerCPU` lookup: the first record for a
populated core, after the update map, carries the new CPU value. -/
lemma find?_update_cpu (l : List WorkerInfo) (c : Nat) (v t : ℚ)
    (h : ∃ u ∈ l, u.coreID = c) :
    ((l.map (fun w =>
        if w.coreID = c then
          { w with currentCPU := v, lastHeartbeat := t }
        else w)).find? (fun w => w.coreID = c)).map
      (fun w => w.currentCPU) = some v := by
  induction l with
  | nil => simp at h
  | cons w l ih =>
    by_cases hw : w.coreID = c
    · simp [List.find?, hw]
    · obtain ⟨u, hu, huc⟩ := h
      rcases List.mem_cons.mp hu with rfl | hu'
      · exact absurd huc hw
      · simpa [List.find?, hw] using ih ⟨u, hu', huc⟩

/-- Looking up the updated core after `UpdateWorkerCPU` sees the new value,
provided the core is populated. -/
lemma derefCPU_updateWorkerCPU (o : Orchestrator) (c : Nat) (v t : ℚ)
    (h : ∃ u ∈ o.workers, u.coreID = c) :
    derefCPU (UpdateWorkerCPU o c v t) c = some v := by
  simpa only [derefCPU, GetWorkerByCore, UpdateWorkerCPU]
    using find?_update_cpu o.workers c v t h

/-- A `find?` hit is preserved by appending more elements. -/
lemma find?_append_left {α : Type} (l l' : List α) (p : α → Bool) (x : α)
    (h : l.find? p = some x) : (l ++ l').find? p = some x := by
  induction l with
  | nil => simp [List.find?] at h
  | cons a t ih =>
    rw [List.cons_append]
    cases hpa : p a with
    | true =>
      rw [List.find?_cons_of_pos _ hpa] at h ⊢
      exact h
    | false =>
      rw [List.find?_cons_of_neg _ (by simp [hpa])] at h ⊢
      exact ih h

/-- The state part of `StartWorker` is either the input registry or the
input registry with one fresh worker appended. -/
lemma startWorker_state (o : Orchestrator) (c : Nat) (dk : Bool)
    (cid : String) (now : ℚ) :
    (StartWorker o c dk cid now).1 = o ∨
      ∃ w : WorkerInfo,
        (StartWorker o c dk cid now).1
          = { o with workers := o.workers ++ [w] } := by
  unfold StartWorker
  split
  · exact Or.inl rfl
  · split
    · exact Or.inl rfl
    · split
      · exact Or.inl rfl
      · exact Or.inr ⟨_, rfl⟩

/-- `checkProactiveSpawn` never changes the record of an already populated
core: it either leaves the registry alone or appends one fresh worker. -/
lemma derefCPU_checkProactiveSpawn (cfg : Config) (o : Orchestrator)
    (dk : Bool) (cid : String) (now : ℚ) (c : Nat) (x : ℚ)
    (h : derefCPU o c = some x) :
    derefCPU (checkProactiveSpawn cfg o dk cid now) c = some x := by
  have hfind : ∃ u, o.workers.find? (fun w => w.coreID = c) = some u ∧
      u.currentCPU = x := by
    simp only [derefCPU, GetWorkerByCore, Option.map_eq_some'] at h
    obtain ⟨u, hu1, hu2⟩ := h
    exact ⟨u, hu1, hu2⟩
  obtain ⟨u, hu, hux⟩ := hfind
  unfold checkProactiveSpawn
  split
  · exact h
  · split
    · split
      · exact h
      · rcases startWorker_state o _ dk cid now with hs | ⟨w, hs⟩
        · rw [hs]; exact h
        · rw [hs]
          simp only [derefCPU, GetWorkerByCore]
          rw [find?_append_left _ _ _ _ hu]
          simp [hux]
    · exact h

/-! ### Helper lemmas about the placement loop -/

/-- A worker produced by the placement loop has CPU at most the running
lowest bound, provided the incoming best worker does. -/
lemma fswLoop_le_lowest (thr est : ℚ) :
    ∀ (l : List WorkerInfo) (best : Option WorkerInfo) (lowest : ℚ)
      (w : WorkerInfo),
      (∀ b, best = some b → b.currentCPU ≤ lowest) →
      findSuitableWorkerLoop thr est l best lowest = some w →
      w.currentCPU ≤ lowest := by
  intro l
  induction l with
  | nil =>
    intro best lowest w hb hr
    exact hb w hr
  | cons u l ih =>
    intro best lowest w hb hr
    rw [findSuitableWorkerLoop] at hr
    split at hr
    · rename_i hcond
      have := ih (some u) u.currentCPU w
        (by intro b hb'; cases hb'; exact le_refl _) hr
      exact le_of_lt (lt_of_le_of_lt this hcond.2)
    · exact ih best lowest w hb hr

/-- A worker produced by the placement loop is the incoming best worker or
a member of the scanned list. -/
lemma fswLoop_mem (thr est : ℚ) :
    ∀ (l : List WorkerInfo) (best : Option WorkerInfo) (lowest : ℚ)
      (w : WorkerInfo),
      findSuitableWorkerLoop thr est l best lowest = some w →
      best = some w ∨ w ∈ l := by
  intro l
  induction l with
  | nil =>
    intro best lowest w hr
    exact Or.inl hr
  | cons u l ih =>
    intro best lowest w hr
    rw [findSuitableWorkerLoop] at hr
    split at hr
    · rcases ih (some u) u.currentCPU w hr with h | h
      · cases h; exact Or.inr (List.mem_cons_self u l)
      · exact Or.inr (List.mem_cons_of_mem u h)
    · rcases ih best lowest w hr with h | h
      · exact Or.inl h
      · exact Or.inr (List.mem_cons_of_mem u h)

/-- A worker produced by the placement loop passes the threshold check,
provided the incoming best worker does. -/
lemma fswLoop_elig (thr est : ℚ) :
    ∀ (l : List WorkerInfo) (best : Option WorkerInfo) (lowest : ℚ)
      (w : WorkerInfo),
      (∀ b, best = some b → b.currentCPU + est ≤ thr) →
      findSuitableWorkerLoop thr est l best lowest = some w →
      w.currentCPU + est ≤ thr := by
  intro l
  induction l with
  | nil =>
    intro best lowest w hb hr
    exact hb w hr
  | cons u l ih =>
    intro best lowest w hb hr
    rw [findSuitableWorkerLoop] at hr
    split at hr
    · rename_i hcond
      exact ih (some u) u.currentCPU w
        (by intro b hb'; cases hb'; exact hcond.1) hr
    · exact ih best lowest w hb hr

/-- A worker produced by the placement loop has the lowest CPU among the
scanned workers that pass the threshold check. -/
lemma fswLoop_min (thr est : ℚ) :
    ∀ (l : List WorkerInfo) (best : Option WorkerInfo) (lowest : ℚ)
      (w : WorkerInfo),
      (∀ b, best = some b → b.currentCPU ≤ lowest) →
      findSuitableWorkerLoop thr est l best lowest = some w →
      ∀ u ∈ l, u.currentCPU + est ≤ thr → w.currentCPU ≤ u.currentCPU := by
  intro l
  induction l with
  | nil =>
    intro best lowest w _ _ u hu
    cases hu
  | cons a l ih =>
    intro best lowest w hb hr u hu hue
    rw [findSuitableWorkerLoop] at hr
    split at hr
    · rename_i hcond
      rcases List.mem_cons.mp hu with rfl | hu'
      · exact fswLoop_le_lowest thr est l (some u) u.currentCPU w
          (by intro b hb'; cases hb'; exact le_refl _) hr
      · exact ih (some a) a.currentCPU w
          (by intro b hb'; cases hb'; exact le_refl _) hr u hu' hue
    · rename_i hcond
      rcases List.mem_cons.mp hu with rfl | hu'
      · have hnl : ¬ u.currentCPU < lowest := fun hl => hcond ⟨hue, hl⟩
        exact le_trans
          (fswLoop_le_lowest thr est l best lowest w hb hr)
          (le_of_not_lt hnl)
      · exact ih best lowest w hb hr u hu' hue

/-- When no scanned worker passes the threshold check, the placement loop
returns its incoming best worker. -/
lemma fswLoop_none (thr est : ℚ) :
    ∀ (l : List WorkerInfo) (best : Option WorkerInfo) (lowest : ℚ),
      (∀ u ∈ l, ¬ u.currentCPU + est ≤ thr) →
      findSuitableWorkerLoop thr est l best lowest = best := by
  intro l
  induction l with
  | nil => intro best lowest _; rfl
  | cons a l ih =>
    intro best lowest h
    rw [findSuitableWorkerLoop]
    split
    · rename_i hcond
      exact absurd hcond.1 (h a (List.mem_cons_self a l))
    · exact ih best lowest (fun u hu => h u (List.mem_cons_of_mem a hu))

/-- Position of the placement loop's result: either the incoming best
worker survives (nothing scanned beat the bound), or the result splits the
scanned list, beats the incoming bound, and every eligible worker strictly
before it has strictly larger CPU — i.e. the result is the first eligible
worker attaining the minimum, in scan order. -/
lemma fswLoop_first (thr est : ℚ) :
    ∀ (l : List WorkerInfo) (best : Option WorkerInfo) (lowest : ℚ)
      (w : WorkerInfo),
      findSuitableWorkerLoop thr est l best lowest = some w →
      (best = some w ∧
        ∀ u ∈ l, u.currentCPU + est ≤ thr → lowest ≤ u.currentCPU) ∨
      (∃ l1 l2, l = l1 ++ w :: l2 ∧ w.currentCPU + est ≤ thr ∧
        w.currentCPU < lowest ∧
        ∀ u ∈ l1, u.currentCPU + est ≤ thr → w.currentCPU < u.currentCPU) := by
  intro l
  induction l with
  | nil =>
    intro best lowest w hr
    exact Or.inl ⟨hr, by intro u hu; cases hu⟩
  | cons a l ih =>
    intro best lowest w hr
    rw [findSuitableWorkerLoop] at hr
    split at hr
    · rename_i hcond
      rcases ih (some a) a.currentCPU w hr with ⟨heq, hall⟩ | ⟨l1, l2, hsp, he, hlt, hpre⟩
      · cases heq
        refine Or.inr ⟨[], l, by simp, hcond.1, hcond.2, ?_⟩
        intro u hu
        cases hu
      · refine Or.inr ⟨a :: l1, l2, by rw [hsp]; rfl, he, lt_trans hlt hcond.2, ?_⟩
        intro u hu hue
        rcases List.mem_cons.mp hu with rfl | hu'
        · exact hlt
        · exact hpre u hu' hue
    · rename_i hcond
      rcases ih best lowest w hr with ⟨heq, hall⟩ | ⟨l1, l2, hsp, he, hlt, hpre⟩
      · refine Or.inl ⟨heq, ?_⟩
        intro u hu hue
        rcases List.mem_cons.mp hu with rfl | hu'
        · exact le_of_not_lt (fun hl => hcond ⟨hue, hl⟩)
        · exact hall u hu' hue
      · refine Or.inr ⟨a :: l1, l2, by rw [hsp]; rfl, he, hlt, ?_⟩
        intro u hu hue
        rcases List.mem_cons.mp hu with rfl | hu'
        · exact lt_of_lt_of_le hlt (le_of_not_lt (fun hl => hcond ⟨hue, hl⟩))
        · exact hpre u hu' hue

/-- A worker returned by `findSuitableWorker` passes the threshold check. -/
lemma findSuitableWorker_elig (cfg : Config) (o : Orchestrator) (est : ℚ)
    (w : WorkerInfo) (h : findSuitableWorker cfg o est = some w) :
    w.currentCPU + est ≤ cfg.maxCPUThreshold := by
  rw [findSuitableWorker] at h
  split at h
  · cases h
  · exact fswLoop_elig _ _ _ none 101 w (by intro b hb; cases hb) h

/-- A worker returned by `findSuitableWorker` is registered. -/
lemma findSuitableWorker_mem (cfg : Config) (o : Orchestrator) (est : ℚ)
    (w : WorkerInfo) (h : findSuitableWorker cfg o est = some w) :
    w ∈ GetAllWorkers o := by
  rw [findSuitableWorker] at h
  split at h
  · cases h
  · rcases fswLoop_mem _ _ _ none 101 w h with h' | h'
    · cases h'
    · exact h'

/-! ### Helper lemmas about the job lifecycle and the drain tick -/

/-- Each lifecycle step pays exactly the sink-write debt it discharges. -/
lemma jobRun_weight :
    ∀ {p : JobPhase} {n : Nat} {r : JobPhase},
      jobRun p n r → phaseW r + n = phaseW p := by
  intro p n r h
  induction h with
  | refl => rfl
  | step hs _ ih =>
    cases hs <;> simp_all [phaseW] <;> omega

/-- The signaled phase has no outgoing lifecycle step: a written sink is
never written again. -/
lemma jobStep_signaled_terminal (e : Bool) (q : JobPhase) :
    ¬ jobStep .signaled e q := by
  intro h
  cases h

/-- Job-count bookkeeping of one drain tick: every job id's multiplicity in
the incoming queue equals its multiplicity in the outgoing queue plus the
number of disposal events (expiry signal, dispatch hand-off, requeue-failure
signal) the tick produced for it. -/
lemma tryProcessQueue_conservation (cfg : Config) :
    ∀ (q : List QueuedJob) (o : Orchestrator) (now : ℚ) (ro : Bool)
      (id : Nat),
      countQ (tryProcessQueue cfg o q now ro).2.1 id
        + countE (tryProcessQueue cfg o q now ro).2.2 id
        = countQ q id := by
  intro q
  induction q with
  | nil =>
    intro o now ro id
    simp [tryProcessQueue, countQ, countE]
  | cons job rmaining ih =>
    intro o now ro id
    rw [tryProcessQueue]
    split
    · have := ih o now ro id
      by_cases hid : job.jobId = id <;>
        simp_all [countQ, countE, eventJobId, List.filter] <;> omega
    · split
      · rename_i w hw
        have := ih (UpdateWorkerCPU o w.coreID
          (w.currentCPU + job.estimatedCPU) now) now ro id
        by_cases hid : job.jobId = id <;>
          simp_all [countQ, countE, eventJobId, List.filter] <;> omega
      · split
        · by_cases hid : job.jobId = id <;>
            simp [countQ, countE, eventJobId, List.filter_append, hid,
              List.filter] <;> omega
        · by_cases hid : job.jobId = id <;>
            simp [countQ, countE, eventJobId, List.filter, hid] <;> omega

/-! ### Claim C2 -/

/-- Registry state used to exercise `UpdateWorkerCPU` on a stored negative
value: one worker on core 1 with `CurrentCPU = 0`. -/
def wC2 : WorkerInfo :=
  { coreID := 1
    containerID := "c2worker"
    hostPort := 8001
    currentCPU := 0
    lastHeartbeat := 0
    isHealthy := true }

/-- Registry holding only `wC2`. -/
def stC2 : Orchestrator := { workers := [wC2], workerBasePort := 8000 }

/-- C2: the claim says every decrement through the registry stores
`max(0, ReservedCPU + delta)`.  The code's registry operation
`UpdateWorkerCPU` stores the caller-supplied value verbatim: called with a
negative target (as the unclamped decrement call sites
`w.CurrentCPU - job.estimatedCPU` can produce under racy double
decrements), it records a negative reservation, where the mandated clamp
would record 0.  This contradicts the scheduler's own comment ("The
UpdateWorkerCPU function will ensure it doesn't go below 0"). -/
theorem C2_registry_does_not_clamp :
    derefCPU (UpdateWorkerCPU stC2 1 (-5) 1) 1 = some (-5) ∧
      (-5 : ℚ) < 0 ∧ max (0 : ℚ) (0 + (-5)) = 0 := by
  refine ⟨rfl, by norm_num, by norm_num⟩

/-! ### Claim C6 -/

/-- Registry with one worker on core 1 at `CurrentCPU = 0`. -/
def wC6 : WorkerInfo :=
  { coreID := 1
    containerID := "c6worker"
    hostPort := 8001
    currentCPU := 0
    lastHeartbeat := 0
    isHealthy := true }

/-- Registry holding only `wC6`. -/
def stC6 : Orchestrator := { workers := [wC6], workerBasePort := 8000 }

/-- C6 counterexample: a snapshot returned by `GetAllWorkers` is a slice of
pointers into the registry's live records, not value copies.  Taking the
snapshot of `stC6` (the single pointer to the core-1 record, which then
reads CPU 0) and afterwards updating core 1 to 50 through the registry
makes the very same snapshot element read 50: the update is observable
through the previously returned snapshot, contradicting the claim. -/
theorem C6_counterexample :
    GetAllWorkersPtrs stC6 = [1] ∧
      derefCPU stC6 1 = some 0 ∧
      derefCPU (UpdateWorkerCPU stC6 1 50 1) 1 = some 50 ∧
      (50 : ℚ) ≠ 0 :=
  ⟨rfl, rfl, rfl, by norm_num⟩

/-- C6 amended: the snapshot slice itself is freshly allocated, so its
membership is stable (updates do not add or remove elements of a previously
returned snapshot), but its elements alias the registry's worker records:
a reservation or heartbeat update applied through the registry after the
snapshot was taken is observable through the snapshot's elements. -/
theorem C6_snapshot_aliases_registry (o : Orchestrator) (c : Nat) (v t : ℚ)
    (h : c ∈ GetAllWorkersPtrs o) :
    derefCPU (UpdateWorkerCPU o c v t) c = some v ∧
      GetAllWorkersPtrs (UpdateWorkerCPU o c v t) = GetAllWorkersPtrs o := by
  constructor
  · apply derefCPU_updateWorkerCPU
    simpa [GetAllWorkersPtrs, List.mem_map] using h
  · simpa [GetAllWorkersPtrs] using updateWorkerCPU_keys o c v t

/-- C6 witness: the amended theorem applied to the concrete registry. -/
theorem C6_witness :
    derefCPU (UpdateWorkerCPU stC6 1 50 1) 1 = some 50 ∧
      GetAllWorkersPtrs (UpdateWorkerCPU stC6 1 50 1)
        = GetAllWorkersPtrs stC6 :=
  C6_snapshot_aliases_registry stC6 1 50 1 (by norm_num [GetAllWorkersPtrs, stC6, wC6])

/-! ### Claim C7 -/

/-- C7: one drain tick of `tryProcessQueue`.  An expired head job (queued
longer than `QUEUE_TIMEOUT`) is signalled with the queue-expired error and
the tick continues with the remaining jobs.  A non-expired head job for
which placement finds no worker is put back at the end of the queue when
the requeue send completes within its grace period, and otherwise signalled
with the requeue-failure error; either way the tick stops: the registry is
left unchanged and no further job is processed in that cycle. -/
theorem C7_drain_tick (cfg : Config) (o : Orchestrator) (job : QueuedJob)
    (rest : List QueuedJob) (now : ℚ) (ro : Bool) :
    (now - job.enqueuedAt > QUEUE_TIMEOUT →
      tryProcessQueue cfg o (job :: rest) now ro =
        ((tryProcessQueue cfg o rest now ro).1,
          (tryProcessQueue cfg o rest now ro).2.1,
          .expired job.jobId :: (tryProcessQueue cfg o rest now ro).2.2)) ∧
    (¬ now - job.enqueuedAt > QUEUE_TIMEOUT →
      findSuitableWorker cfg o job.estimatedCPU = none →
      tryProcessQueue cfg o (job :: rest) now ro =
        (o, if ro then rest ++ [job] else rest,
          if ro then [] else [.requeueFailed job.jobId])) := by
  constructor
  · intro h
    rw [tryProcessQueue]
    simp [h]
  · intro h1 h2
    rw [tryProcessQueue]
    cases ro <;> simp [h1, h2]

/-- An expired queued job (enqueued at time 0, examined at time 100). -/
def jobExpiredC7 : QueuedJob := { jobId := 1, enqueuedAt := 0, estimatedCPU := 20 }

/-- A fresh queued job (enqueued at time 0, examined at time 0). -/
def jobFreshC7 : QueuedJob := { jobId := 2, enqueuedAt := 0, estimatedCPU := 20 }

/-- An empty registry (no workers), so placement finds no worker. -/
def stC7 : Orchestrator := { workers := [], workerBasePort := 8000 }

/-- C7 witness: the tick theorem applied to a concrete expired job and to a
concrete placement miss on an empty registry. -/
theorem C7_witness :
    tryProcessQueue defaultConfig stC7 [jobExpiredC7] 100 true
        = (stC7, [], [.expired 1]) ∧
      tryProcessQueue defaultConfig stC7 [jobFreshC7] 0 true
        = (stC7, [] ++ [jobFreshC7], []) :=
  ⟨(C7_drain_tick defaultConfig stC7 jobExpiredC7 [] 100 true).1
      (by norm_num [jobExpiredC7, QUEUE_TIMEOUT]),
    (C7_drain_tick defaultConfig stC7 jobFreshC7 [] 0 true).2
      (by norm_num [jobFreshC7, QUEUE_TIMEOUT]) rfl⟩

/-! ### Claim C8 -/

/-- C8: the enqueue step is non-blocking with a full indication.  With
fewer than `MAX_QUEUE_SIZE` jobs queued, the offer succeeds immediately and
appends the job; with exactly `MAX_QUEUE_SIZE` jobs queued, the buffered
channel's `select ... default` branch fires and the caller immediately
receives the queue-full error. -/
theorem C8_offer_nonblocking (q : List QueuedJob) (job : QueuedJob) :
    (q.length < MAX_QUEUE_SIZE →
      offerToQueue q job = .ok (q ++ [job])) ∧
    (q.length = MAX_QUEUE_SIZE →
      offerToQueue q job = .error "job queue full") := by
  constructor
  · intro h
    simp [offerToQueue, h]
  · intro h
    simp [offerToQueue, h]

/-- A queued job used to exercise the offer. -/
def jobC8 : QueuedJob := { jobId := 3, enqueuedAt := 0, estimatedCPU := 20 }

/-- C8 witness: the offer theorem applied to the empty queue and to a queue
holding exactly `MAX_QUEUE_SIZE` jobs. -/
theorem C8_witness :
    offerToQueue [] jobC8 = .ok ([] ++ [jobC8]) ∧
      offerToQueue (List.replicate 100 jobC8) jobC8
        = .error "job queue full" :=
  ⟨(C8_offer_nonblocking [] jobC8).1 (by simp [MAX_QUEUE_SIZE]),
    (C8_offer_nonblocking (List.replicate 100 jobC8) jobC8).2
      (by simp [MAX_QUEUE_SIZE])⟩

/-! ### Claim C10 -/

/-- C10: adjusting the reservation of an unpopulated slot is a silent
no-op.  `UpdateWorkerCPU` has no error result, and when no registered
worker has the given core id it returns the registry completely unchanged —
every worker's `CurrentCPU` and `LastHeartbeat` included — for every value. -/
theorem C10_update_unpopulated_noop (o : Orchestrator) (c : Nat) (v t : ℚ)
    (h : ∀ u ∈ o.workers, u.coreID ≠ c) :
    UpdateWorkerCPU o c v t = o := by
  have hmap : o.workers.map (fun w =>
      if w.coreID = c then { w with currentCPU := v, lastHeartbeat := t }
      else w) = o.workers := by
    conv_rhs => rw [← List.map_id o.workers]
    exact List.map_congr_left (fun u hu => by simp [h u hu])
  cases o with
  | mk ws bp =>
    simpa [UpdateWorkerCPU] using hmap

/-- Registry with a single worker on core 1, used to exercise an update on
the unpopulated core 2. -/
def wC10 : WorkerInfo :=
  { coreID := 1
    containerID := "c10worker"
    hostPort := 8001
    currentCPU := 7
    lastHeartbeat := 0
    isHealthy := true }

/-- Registry holding only `wC10`. -/
def stC10 : Orchestrator := { workers := [wC10], workerBasePort := 8000 }

/-- C10 witness: updating the unpopulated core 2 leaves the registry
unchanged. -/
theorem C10_witness : UpdateWorkerCPU stC10 2 50 1 = stC10 :=
  C10_update_unpopulated_noop stC10 2 50 1
    (by
      intro u hu
      rcases List.mem_singleton.mp hu with rfl
      norm_num [wC10])

/-! ### Helper lemmas about the reservation paths -/

/-- When `find?` misses on the left part, searching the concatenation
searches the right part. -/
lemma find?_append_of_none {α : Type} (l l' : List α) (p : α → Bool)
    (h : l.find? p = none) : (l ++ l').find? p = l'.find? p := by
  induction l with
  | nil => rfl
  | cons a t ih =>
    cases hpa : p a with
    | true =>
      rw [List.find?_cons_of_pos _ hpa] at h
      cases h
    | false =>
      rw [List.find?_cons_of_neg _ (by simp [hpa])] at h
      rw [List.cons_append, List.find?_cons_of_neg _ (by simp [hpa])]
      exact ih h

/-- Characterization of a successful `StartWorker`: the core was free and
the new state appends exactly the fresh zero-CPU worker record. -/
lemma startWorker_ok (o : Orchestrator) (c : Nat) (dk : Bool) (cid : String)
    (now : ℚ) (o1 : Orchestrator) (r : String)
    (h : StartWorker o c dk cid now = (o1, .ok r)) :
    GetWorkerByCore o c = none ∧
      o1 = { o with workers := o.workers ++
        [{ coreID := c, containerID := cid,
           hostPort := o.workerBasePort + c, currentCPU := 0,
           lastHeartbeat := now, isHealthy := true }] } := by
  unfold StartWorker at h
  split at h
  · injection h with h1 h2
    cases h2
  · split at h
    · injection h with h1 h2
      cases h2
    · split at h
      · injection h with h1 h2
        cases h2
      · rename_i hval hocc _
        injection h with h1 h2
        exact ⟨Option.not_isSome_iff_eq_none.mp hocc, h1.symm⟩

/-- Characterization of a successful reservation commit on the direct path:
either a suitable worker was found and its reservation raised, or the
placement missed, the committed core was freshly provisioned (it was free
before), and its reservation was raised from zero. -/
lemma reserveDirect_ok (cfg : Config) (o : Orchestrator) (est : ℚ)
    (dk : Bool) (cid : String) (now : ℚ) (o1 : Orchestrator) (c : Nat)
    (h : reserveDirect cfg o est dk cid now = .ok (o1, c)) :
    (∃ w, findSuitableWorker cfg o est = some w ∧ c = w.coreID ∧
        o1 = UpdateWorkerCPU o c (w.currentCPU + est) now) ∨
    (GetWorkerByCore o c = none ∧
        o1 = UpdateWorkerCPU
          { o with workers := o.workers ++
              [{ coreID := c, containerID := cid,
                 hostPort := o.workerBasePort + c, currentCPU := 0,
                 lastHeartbeat := now, isHealthy := true }] }
          c (0 + est) now) := by
  unfold reserveDirect at h
  split at h
  · rename_i w hw
    cases h
    exact Or.inl ⟨w, hw, rfl, rfl⟩
  · rename_i hw
    split at h
    · cases h
    · rename_i cid2 hnext
      split at h
      · cases h
      · rename_i o1' s hsw
        obtain ⟨hfree, ho1'⟩ := startWorker_ok o cid2 dk cid now o1' s hsw
        split at h
        · cases h
        · rename_i wf hwf
          have hfind : GetWorkerByCore o1' cid2 = some
              { coreID := cid2, containerID := cid,
                hostPort := o.workerBasePort + cid2, currentCPU := 0,
                lastHeartbeat := now, isHealthy := true } := by
            rw [ho1']
            unfold GetWorkerByCore at hfree ⊢
            rw [find?_append_of_none _ _ _ hfree]
            simp [List.find?]
          have hwf' := hwf.symm.trans hfind
          cases hwf'
          cases h
          exact Or.inr ⟨hfree, by rw [ho1']⟩

/-- The queued immediate path commits reservations exactly as the direct
path does: a successful `reserveWithQueue` is a successful
`reserveDirect`. -/
lemma reserveWithQueue_eq_ok (cfg : Config) (o : Orchestrator) (est : ℚ)
    (dk : Bool) (cid : String) (now : ℚ) (r : Orchestrator × Nat)
    (h : reserveWithQueue cfg o est dk cid now = some r) :
    reserveDirect cfg o est dk cid now = .ok r := by
  unfold reserveWithQueue at h
  unfold reserveDirect
  split at h
  · cases h
    rfl
  · split at h
    · cases h
    · split at h
      · cases h
      · split at h
        · cases h
        · cases h
          rfl

/-- Core-id membership is preserved by `UpdateWorkerCPU`. -/
lemma exists_coreID_updateWorkerCPU (o : Orchestrator) (c : Nat) (v t : ℚ)
    (c' : Nat) (h : ∃ u ∈ o.workers, u.coreID = c') :
    ∃ u ∈ (UpdateWorkerCPU o c v t).workers, u.coreID = c' := by
  have hk := updateWorkerCPU_keys o c v t
  have : c' ∈ (UpdateWorkerCPU o c v t).workers.map (fun w => w.coreID) := by
    rw [hk, List.mem_map]
    exact h
  rw [List.mem_map] at this
  exact this

/-- A bound on the committed value propagates to every worker of the
updated registry, provided every worker already satisfied it. -/
lemma updateWorkerCPU_all_le (o : Orchestrator) (c : Nat) (v t thr : ℚ)
    (h : ∀ w ∈ o.workers, w.currentCPU ≤ thr) (hv : v ≤ thr) :
    ∀ w ∈ (UpdateWorkerCPU o c v t).workers, w.currentCPU ≤ thr := by
  intro w hw
  simp only [UpdateWorkerCPU, List.mem_map] at hw
  obtain ⟨u, hu, rfl⟩ := hw
  by_cases hc : u.coreID = c
  · simpa [hc] using hv
  · simpa [hc] using h u hu

/-- In a registry with duplicate-free core ids, looking up a registered
worker's core finds that worker. -/
lemma find?_coreID_of_mem (l : List WorkerInfo)
    (hnd : (l.map (fun w => w.coreID)).Nodup) (w : WorkerInfo) (hw : w ∈ l) :
    l.find? (fun u => u.coreID = w.coreID) = some w := by
  induction l with
  | nil => cases hw
  | cons a t ih =>
    rw [List.map_cons, List.nodup_cons] at hnd
    by_cases hac : a.coreID = w.coreID
    · rw [List.find?_cons_of_pos _ (by simp [hac])]
      rcases List.mem_cons.mp hw with rfl | hw'
      · rfl
      · exact absurd (hac ▸ List.mem_map_of_mem (fun u => u.coreID) hw')
          hnd.1
    · rw [List.find?_cons_of_neg _ (by simp [hac])]
      rcases List.mem_cons.mp hw with rfl | hw'
      · exact absurd rfl hac
      · exact ih hnd.2 hw'

end ContainerOrchestrator


namespace ContainerOrchestrator

/-! ### Claim C3 -/

/-- Worker on core 1 with CPU 10. -/
def wC3a : WorkerInfo :=
  { coreID := 1
    containerID := "c3worker1"
    hostPort := 8001
    currentCPU := 10
    lastHeartbeat := 0
    isHealthy := true }

/-- Worker on core 2 with CPU 10 — tied with `wC3a`. -/
def wC3b : WorkerInfo :=
  { coreID := 2
    containerID := "c3worker2"
    hostPort := 8002
    currentCPU := 10
    lastHeartbeat := 0
    isHealthy := true }

/-- The registry holding both tied workers, enumerated with core 2 first —
one of the iteration orders Go's randomised map traversal produces for the
map holding these two workers. -/
def stC3 : Orchestrator := { workers := [wC3b, wC3a], workerBasePort := 8000 }

/-- C3 counterexample: with two eligible workers tied at the lowest CPU, the
placement keeps the first worker the map iteration happens to present
(strict `<` comparison, scheduler line 348), so with core 2 enumerated
first it returns the core-2 worker even though the tied core-1 worker has
the lower slot id.  The claimed lowest-`SlotID` tie-break does not hold. -/
theorem C3_counterexample :
    findSuitableWorker defaultConfig stC3 20 = some wC3b ∧
      wC3a ∈ GetAllWorkers stC3 ∧
      wC3a.currentCPU + 20 ≤ defaultConfig.maxCPUThreshold ∧
      wC3a.currentCPU = wC3b.currentCPU ∧
      wC3a.coreID < wC3b.coreID := by
  refine ⟨?_, ?_, ?_, ?_, ?_⟩
  · norm_num [findSuitableWorker, GetAllWorkers, findSuitableWorkerLoop,
      stC3, wC3a, wC3b, defaultConfig]
  · simp [GetAllWorkers, stC3]
  · norm_num [wC3a, defaultConfig]
  · norm_num [wC3a, wC3b]
  · norm_num [wC3a, wC3b]

/-- C3 amended: a worker returned by `findSuitableWorker` satisfies the
threshold bound and has the lowest `CurrentCPU` among all workers
satisfying the bound, and if no worker satisfies the bound none is
returned; but ties at the lowest CPU are broken by the registry's
enumeration order (the returned worker is the first eligible worker
attaining the minimum, every eligible worker enumerated before it having
strictly larger CPU), not by lowest `SlotID`. -/
theorem C3_placement_selection (cfg : Config) (o : Orchestrator) (est : ℚ) :
    (∀ w, findSuitableWorker cfg o est = some w →
      w.currentCPU + est ≤ cfg.maxCPUThreshold ∧
        (∀ u ∈ GetAllWorkers o,
          u.currentCPU + est ≤ cfg.maxCPUThreshold →
          w.currentCPU ≤ u.currentCPU) ∧
        ∃ l1 l2, GetAllWorkers o = l1 ++ w :: l2 ∧
          ∀ u ∈ l1, u.currentCPU + est ≤ cfg.maxCPUThreshold →
            w.currentCPU < u.currentCPU) ∧
    ((∀ u ∈ GetAllWorkers o, ¬ u.currentCPU + est ≤ cfg.maxCPUThreshold) →
      findSuitableWorker cfg o est = none) := by
  constructor
  · intro w h
    have hmin : ∀ u ∈ GetAllWorkers o,
        u.currentCPU + est ≤ cfg.maxCPUThreshold →
        w.currentCPU ≤ u.currentCPU := by
      rw [findSuitableWorker] at h
      split at h
      · cases h
      · exact fswLoop_min cfg.maxCPUThreshold est (GetAllWorkers o) none 101 w
          (by intro b hb; cases hb) h
    have he := findSuitableWorker_elig cfg o est w h
    rw [findSuitableWorker] at h
    split at h
    · cases h
    · rcases fswLoop_first cfg.maxCPUThreshold est (GetAllWorkers o) none 101
          w h with ⟨heq, _⟩ | ⟨l1, l2, hsp, _, _, hpre⟩
      · cases heq
      · exact ⟨he, hmin, l1, l2, hsp, hpre⟩
  · intro h
    rw [findSuitableWorker]
    split
    · rfl
    · exact fswLoop_none cfg.maxCPUThreshold est (GetAllWorkers o) none 101 h

/-- A busy worker (CPU 70) on core 1: adding 20 would exceed the default
threshold of 80. -/
def wC3busy : WorkerInfo :=
  { coreID := 1
    containerID := "c3busy"
    hostPort := 8001
    currentCPU := 70
    lastHeartbeat := 0
    isHealthy := true }

/-- Registry holding only the busy worker. -/
def stC3busy : Orchestrator :=
  { workers := [wC3busy], workerBasePort := 8000 }

/-- C3 witness: the amended theorem applied to the tied registry (the
returned tied worker's CPU is minimal) and to the busy registry (no
eligible worker, so no worker is returned). -/
theorem C3_witness :
    wC3b.currentCPU ≤ wC3a.currentCPU ∧
      findSuitableWorker defaultConfig stC3busy 20 = none :=
  ⟨((C3_placement_selection defaultConfig stC3 20).1 wC3b
      (by norm_num [findSuitableWorker, GetAllWorkers, findSuitableWorkerLoop,
        stC3, wC3a, wC3b, defaultConfig])).2.1 wC3a
      (by simp [GetAllWorkers, stC3])
      (by norm_num [wC3a, defaultConfig]),
    (C3_placement_selection defaultConfig stC3busy 20).2
      (by
        intro u hu
        simp only [GetAllWorkers, stC3busy] at hu
        rcases List.mem_singleton.mp hu with rfl
        norm_num [wC3busy, defaultConfig])⟩

end ContainerOrchestrator

namespace ContainerOrchestrator

/-- Every reservation commit of a drain tick passes the threshold check, so
a tick preserves "every worker is at or below the threshold". -/
lemma tryProcessQueue_threshold (cfg : Config) :
    ∀ (q : List QueuedJob) (o : Orchestrator) (now : ℚ) (ro : Bool),
      (∀ w ∈ o.workers, w.currentCPU ≤ cfg.maxCPUThreshold) →
      ∀ w ∈ (tryProcessQueue cfg o q now ro).1.workers,
        w.currentCPU ≤ cfg.maxCPUThreshold := by
  intro q
  induction q with
  | nil =>
    intro o now ro h
    simpa [tryProcessQueue] using h
  | cons job rest ih =>
    intro o now ro h
    rw [tryProcessQueue]
    split
    · simpa using ih o now ro h
    · split
      · rename_i w hw
        have helig := findSuitableWorker_elig cfg o job.estimatedCPU w hw
        have h1 := updateWorkerCPU_all_le o w.coreID
          (w.currentCPU + job.estimatedCPU) now cfg.maxCPUThreshold h helig
        simpa using ih _ now ro h1
      · split
        · simpa using h
        · simpa using h

/-! ### Claim C1 -/

/-- The empty registry (no workers provisioned yet). -/
def stC1 : Orchestrator := { workers := [], workerBasePort := 8000 }

/-- The worker state the queued scheduling path produces for a job with
estimated CPU 95 on the empty registry: freshly provisioned on core 1 and
immediately reserved to 95. -/
def wC1 : WorkerInfo :=
  { coreID := 1
    containerID := "c1worker"
    hostPort := 8001
    currentCPU := 95
    lastHeartbeat := 0
    isHealthy := true }

/-- C1 counterexample: a job with `cpu_load = 95` (a valid request, and its
own estimate since the estimator only clamps to `[0, 100]`) finds no
suitable worker on the empty registry, so the scheduling path provisions a
fresh worker and commits `CurrentCPU = 0 + 95 = 95` with no threshold
check.  Immediately after this reservation commit the reserving worker
stands at 95 > 80 = `MaxCPUThreshold`, violating the claimed invariant. -/
theorem C1_counterexample :
    EstimateCPUUsage 95 = 95 ∧
      reserveWithQueue defaultConfig stC1 95 true "c1worker" 0
        = some ({ workers := [wC1], workerBasePort := 8000 }, 1) ∧
      derefCPU ({ workers := [wC1], workerBasePort := 8000 } : Orchestrator) 1
        = some 95 ∧
      ¬ (95 : ℚ) ≤ defaultConfig.maxCPUThreshold := by
  refine ⟨by norm_num [EstimateCPUUsage], ?_, by rfl, by norm_num [defaultConfig]⟩
  norm_num [reserveWithQueue, findSuitableWorker, GetAllWorkers,
    findSuitableWorkerLoop, GetNextAvailableCore, GetWorkerByCore,
    StartWorker, validCore, UpdateWorkerCPU, stC1, wC1, defaultConfig,
    List.find?]

/-- C1 amended: threshold safety holds for every reservation commit —
direct path, queued immediate path, and drain path — provided the job's
estimated CPU does not itself exceed `MaxCPUThreshold`.  (The
freshly-provisioned-worker branches commit `0 + EstimatedCPU` without any
threshold check, so the proviso is exactly what the counterexample forces;
commits on workers selected by `findSuitableWorker` are threshold-checked,
and a drain tick preserves the all-workers-below-threshold invariant.) -/
theorem C1_threshold_safety (cfg : Config) (o : Orchestrator) (est : ℚ)
    (dk : Bool) (cid : String) (now : ℚ) (q : List QueuedJob) (ro : Bool)
    (hest : est ≤ cfg.maxCPUThreshold) :
    (∀ o1 c v, reserveDirect cfg o est dk cid now = .ok (o1, c) →
      derefCPU o1 c = some v → v ≤ cfg.maxCPUThreshold) ∧
    (∀ o1 c v, reserveWithQueue cfg o est dk cid now = some (o1, c) →
      derefCPU o1 c = some v → v ≤ cfg.maxCPUThreshold) ∧
    ((∀ w ∈ o.workers, w.currentCPU ≤ cfg.maxCPUThreshold) →
      ∀ w ∈ (tryProcessQueue cfg o q now ro).1.workers,
        w.currentCPU ≤ cfg.maxCPUThreshold) := by
  have hA : ∀ o1 c v, reserveDirect cfg o est dk cid now = .ok (o1, c) →
      derefCPU o1 c = some v → v ≤ cfg.maxCPUThreshold := by
    intro o1 c v h hd
    rcases reserveDirect_ok cfg o est dk cid now o1 c h with
      ⟨w, hfsw, hc, ho1⟩ | ⟨hfree, ho1⟩
    · have hmem : ∃ u ∈ o.workers, u.coreID = c :=
        ⟨w, findSuitableWorker_mem cfg o est w hfsw, hc.symm⟩
      rw [ho1, derefCPU_updateWorkerCPU o c (w.currentCPU + est) now hmem]
        at hd
      cases hd
      exact findSuitableWorker_elig cfg o est w hfsw
    · have hmem : ∃ u ∈ ({ o with workers := o.workers ++
          [{ coreID := c, containerID := cid,
             hostPort := o.workerBasePort + c, currentCPU := 0,
             lastHeartbeat := now, isHealthy := true }] } :
            Orchestrator).workers, u.coreID = c := by
        refine ⟨_, List.mem_append_right _ (List.mem_singleton_self _), rfl⟩
      rw [ho1, derefCPU_updateWorkerCPU _ c (0 + est) now hmem] at hd
      cases hd
      simpa using hest
  refine ⟨hA, ?_, tryProcessQueue_threshold cfg q o now ro⟩
  intro o1 c v h hd
  exact hA o1 c v (reserveWithQueue_eq_ok cfg o est dk cid now (o1, c) h) hd

/-- A half-loaded worker on core 1 (CPU 10). -/
def wC1pre : WorkerInfo :=
  { coreID := 1
    containerID := "c1pre"
    hostPort := 8001
    currentCPU := 10
    lastHeartbeat := 0
    isHealthy := true }

/-- Registry holding only `wC1pre`. -/
def stC1pre : Orchestrator := { workers := [wC1pre], workerBasePort := 8000 }

/-- `wC1pre` after a direct-path commit of estimate 20 at time 0. -/
def wC1post : WorkerInfo :=
  { coreID := 1
    containerID := "c1pre"
    hostPort := 8001
    currentCPU := 30
    lastHeartbeat := 0
    isHealthy := true }

/-- Registry holding only `wC1post`. -/
def stC1post : Orchestrator :=
  { workers := [wC1post], workerBasePort := 8000 }

/-- C1 witness: the amended theorem applied to a concrete direct-path
commit (10 + 20 = 30 stays within the default threshold 80). -/
theorem C1_witness : (30 : ℚ) ≤ defaultConfig.maxCPUThreshold :=
  (C1_threshold_safety defaultConfig stC1pre 20 true "x" 0 [] true
      (by norm_num [defaultConfig])).1 stC1post 1 30
    (by
      norm_num [reserveDirect, findSuitableWorker, GetAllWorkers,
        findSuitableWorkerLoop, UpdateWorkerCPU, stC1pre, wC1pre,
        stC1post, wC1post, defaultConfig])
    (by rfl)

end ContainerOrchestrator

namespace ContainerOrchestrator

/-! ### Claim C5 -/

/-- C5: slot uniqueness.  Registering a worker on a populated slot fails
with an error and returns the registry unchanged (so the existing worker
and every other entry survive), and the at-most-one-worker-per-slot
invariant (duplicate-free core ids, which holds of the initial empty
registry) is preserved both by `StartWorker` — successful or not — and by
`UpdateWorkerCPU`, so no slot is ever double-provisioned. -/
theorem C5_slot_uniqueness (o : Orchestrator) (c : Nat) (dk : Bool)
    (cid : String) (now v t : ℚ) :
    ((GetWorkerByCore o c).isSome →
      (StartWorker o c dk cid now).1 = o ∧
        ∃ msg, (StartWorker o c dk cid now).2 = .error msg) ∧
    ((o.workers.map (fun w => w.coreID)).Nodup →
      ((StartWorker o c dk cid now).1.workers.map
        (fun w => w.coreID)).Nodup) ∧
    ((o.workers.map (fun w => w.coreID)).Nodup →
      ((UpdateWorkerCPU o c v t).workers.map (fun w => w.coreID)).Nodup) := by
  refine ⟨?_, ?_, ?_⟩
  · intro hocc
    unfold StartWorker
    split
    · exact ⟨rfl, _, rfl⟩
    · exact ⟨rfl, _, rfl⟩
  · intro hnd
    unfold StartWorker
    split
    · exact hnd
    · split
      · exact hnd
      · split
        · exact hnd
        · rename_i hval hnocc hdk
          have hfree : ∀ u ∈ o.workers, ¬ u.coreID = c := by
            have := Option.not_isSome_iff_eq_none.mp hnocc
            unfold GetWorkerByCore at this
            intro u hu
            have := List.find?_eq_none.mp this u hu
            simpa using this
          simp only [List.map_append]
          refine List.Nodup.append hnd (List.nodup_singleton _) ?_
          intro a ha hc
          rcases List.mem_singleton.mp hc with rfl
          rcases List.mem_map.mp ha with ⟨u, hu, huc⟩
          exact hfree u hu huc
  · intro hnd
    rw [updateWorkerCPU_keys]
    exact hnd

/-- A worker occupying core 1. -/
def wC5 : WorkerInfo :=
  { coreID := 1
    containerID := "c5worker"
    hostPort := 8001
    currentCPU := 40
    lastHeartbeat := 0
    isHealthy := true }

/-- Registry with core 1 populated by `wC5`. -/
def stC5 : Orchestrator := { workers := [wC5], workerBasePort := 8000 }

/-- C5 witness: the uniqueness theorem applied to the concrete populated
registry — re-registering core 1 leaves the registry unchanged, and the
duplicate-free invariant survives an update. -/
theorem C5_witness :
    (StartWorker stC5 1 true "other" 1).1 = stC5 ∧
      ((UpdateWorkerCPU stC5 1 55 1).workers.map
        (fun w => w.coreID)).Nodup :=
  ⟨((C5_slot_uniqueness stC5 1 true "other" 1 55 1).1
      (by simp [GetWorkerByCore, stC5, wC5, List.find?])).1,
    (C5_slot_uniqueness stC5 1 true "other" 1 55 1).2.2
      (by simp [stC5, wC5])⟩

end ContainerOrchestrator

namespace ContainerOrchestrator

/-- Joint characterization of a committed reservation, as needed for
rollback reasoning: the committed core reads `base + est` immediately after
the commit, where `base` is the worker's pre-placement reservation (0 for a
freshly provisioned worker), `base` is non-negative, and the core is
populated after the commit. -/
lemma reserveDirect_ok_value (cfg : Config) (o : Orchestrator) (est : ℚ)
    (dk : Bool) (cid : String) (now : ℚ) (o1 : Orchestrator) (c : Nat)
    (hnd : (o.workers.map (fun w => w.coreID)).Nodup)
    (hnn : ∀ u ∈ o.workers, 0 ≤ u.currentCPU)
    (h : reserveDirect cfg o est dk cid now = .ok (o1, c)) :
    ∃ base : ℚ, derefCPU o1 c = some (base + est) ∧
      (derefCPU o c).getD 0 = base ∧ 0 ≤ base ∧
      ∃ u ∈ o1.workers, u.coreID = c := by
  rcases reserveDirect_ok cfg o est dk cid now o1 c h with
    ⟨w, hfsw, hc, ho1⟩ | ⟨hfree, ho1⟩
  · have hw : w ∈ o.workers := findSuitableWorker_mem cfg o est w hfsw
    have hmem : ∃ u ∈ o.workers, u.coreID = c := ⟨w, hw, hc.symm⟩
    refine ⟨w.currentCPU, ?_, ?_, hnn w hw, ?_⟩
    · rw [ho1]
      exact derefCPU_updateWorkerCPU o c (w.currentCPU + est) now hmem
    · have hfind : o.workers.find? (fun u => u.coreID = w.coreID) = some w :=
        find?_coreID_of_mem o.workers hnd w hw
      rw [hc]
      simp [derefCPU, GetWorkerByCore, hfind]
    · rw [ho1]
      exact exists_coreID_updateWorkerCPU o c (w.currentCPU + est) now c hmem
  · have hmemApp : ∃ u ∈ ({ o with workers := o.workers ++
        [{ coreID := c, containerID := cid,
           hostPort := o.workerBasePort + c, currentCPU := 0,
           lastHeartbeat := now, isHealthy := true }] } :
          Orchestrator).workers, u.coreID = c :=
      ⟨_, List.mem_append_right _ (List.mem_singleton_self _), rfl⟩
    refine ⟨0, ?_, ?_, le_refl 0, ?_⟩
    · rw [ho1]
      exact derefCPU_updateWorkerCPU _ c (0 + est) now hmemApp
    · simp [derefCPU, hfree]
    · rw [ho1]
      exact exists_coreID_updateWorkerCPU _ c (0 + est) now c hmemApp

/-! ### Claim C4 -/

/-- C4: rollback completeness.  On every path where the dispatch fails
after the CPU reservation was committed — the direct path (which rolls back
with an explicit clamp at zero), the queued immediate path and the drain
completion path (which decay the reservation by the estimate) — the
scheduling call returns the dispatch error and the reserving worker's final
`ReservedCPU` equals its pre-placement value (0 for a freshly provisioned
worker); exactly, since the model's arithmetic is exact. -/
theorem C4_rollback_completeness (cfg : Config) (o : Orchestrator)
    (est : ℚ) (dk : Bool) (cid : String) (now : ℚ) (e : String) (so : Bool)
    (sc : String)
    (hnd : (o.workers.map (fun w => w.coreID)).Nodup)
    (hnn : ∀ u ∈ o.workers, 0 ≤ u.currentCPU) :
    (∀ o1 c, reserveDirect cfg o est dk cid now = .ok (o1, c) →
      (scheduleJobDirect cfg o est dk cid now (.error e) so sc).2
          = .error e ∧
        derefCPU (scheduleJobDirect cfg o est dk cid now (.error e) so sc).1
          c = some ((derefCPU o c).getD 0)) ∧
    (∀ o1 c stF res,
      reserveWithQueue cfg o est dk cid now = some (o1, c) →
      scheduleImmediateWithQueue cfg o est dk cid now (.error e) so sc
        = some (stF, res) →
      res = .error e ∧ derefCPU stF c = some ((derefCPU o c).getD 0)) ∧
    (∀ c pre, derefCPU o c = some (pre + est) →
      (drainDispatchComplete cfg o c est now (.error e) so sc).2
          = .error e ∧
        derefCPU (drainDispatchComplete cfg o c est now (.error e) so sc).1
          c = some pre) := by
  refine ⟨?_, ?_, ?_⟩
  · intro o1 c h
    obtain ⟨base, h1, h2, h3, h4⟩ :=
      reserveDirect_ok_value cfg o est dk cid now o1 c hnd hnn h
    have hred : scheduleJobDirect cfg o est dk cid now (.error e) so sc
        = (UpdateWorkerCPU o1 c (max 0 (((derefCPU o1 c).getD 0) - est)) now,
            .error e) := by
      unfold scheduleJobDirect
      rw [h]
    rw [hred]
    refine ⟨rfl, ?_⟩
    rw [h1]
    have hval : max 0 ((some (base + est)).getD 0 - est) = base := by
      simp only [Option.getD_some, add_sub_cancel_right]
      exact max_eq_right h3
    rw [hval, derefCPU_updateWorkerCPU o1 c base now h4, h2]
  · intro o1 c stF res hq hs
    obtain ⟨base, h1, h2, _, h4⟩ :=
      reserveDirect_ok_value cfg o est dk cid now o1 c hnd hnn
        (reserveWithQueue_eq_ok cfg o est dk cid now (o1, c) hq)
    have hred : scheduleImmediateWithQueue cfg o est dk cid now (.error e)
        so sc
        = some (checkProactiveSpawn cfg
            (UpdateWorkerCPU o1 c (((derefCPU o1 c).getD 0) - est) now)
            so sc now, .error e) := by
      unfold scheduleImmediateWithQueue
      rw [hq]
    rw [hred] at hs
    injection hs with hs'
    injection hs' with hsF hsR
    refine ⟨hsR.symm, ?_⟩
    rw [← hsF]
    have hin : derefCPU
        (UpdateWorkerCPU o1 c (((derefCPU o1 c).getD 0) - est) now) c
        = some base := by
      rw [h1]
      have hval : (some (base + est)).getD 0 - est = base := by
        simp [add_sub_cancel_right]
      rw [hval]
      exact derefCPU_updateWorkerCPU o1 c base now h4
    rw [derefCPU_checkProactiveSpawn cfg _ so sc now c base hin, h2]
  · intro c pre hd
    have hmem : ∃ u ∈ o.workers, u.coreID = c := by
      simp only [derefCPU, GetWorkerByCore, Option.map_eq_some'] at hd
      obtain ⟨u, hu, _⟩ := hd
      exact ⟨u, List.mem_of_find?_eq_some hu, by
        have := List.find?_some hu
        simpa using this⟩
    unfold drainDispatchComplete
    refine ⟨rfl, ?_⟩
    have hin : derefCPU
        (UpdateWorkerCPU o c (((derefCPU o c).getD 0) - est) now) c
        = some pre := by
      rw [hd]
      have hval : (some (pre + est)).getD 0 - est = pre := by
        simp [add_sub_cancel_right]
      rw [hval]
      exact derefCPU_updateWorkerCPU o c pre now hmem
    exact derefCPU_checkProactiveSpawn cfg _ so sc now c pre hin

end ContainerOrchestrator

namespace ContainerOrchestrator

/-- A half-loaded worker on core 1 used to exercise a failing dispatch. -/
def wC4 : WorkerInfo :=
  { coreID := 1
    containerID := "c4worker"
    hostPort := 8001
    currentCPU := 10
    lastHeartbeat := 0
    isHealthy := true }

/-- Registry holding only `wC4`. -/
def stC4 : Orchestrator := { workers := [wC4], workerBasePort := 8000 }

/-- `wC4` right after the direct-path commit of estimate 20 at time 0. -/
def wC4post : WorkerInfo :=
  { coreID := 1
    containerID := "c4worker"
    hostPort := 8001
    currentCPU := 30
    lastHeartbeat := 0
    isHealthy := true }

/-- Registry holding only `wC4post`. -/
def stC4post : Orchestrator := { workers := [wC4post], workerBasePort := 8000 }

/-- C4 witness: the rollback theorem applied to a concrete failing direct
dispatch — the call surfaces the dispatch error and core 1 ends back at its
pre-placement reservation. -/
theorem C4_witness :
    (scheduleJobDirect defaultConfig stC4 20 true "x" 0 (.error "boom")
        true "y").2 = .error "boom" ∧
      derefCPU (scheduleJobDirect defaultConfig stC4 20 true "x" 0
          (.error "boom") true "y").1 1
        = some ((derefCPU stC4 1).getD 0) :=
  (C4_rollback_completeness defaultConfig stC4 20 true "x" 0 "boom" true "y"
      (by simp [stC4, wC4])
      (by
        intro u hu
        rcases List.mem_singleton.mp hu with rfl
        norm_num [wC4])).1 stC4post 1
    (by norm_num [reserveDirect, findSuitableWorker, GetAllWorkers,
      findSuitableWorkerLoop, UpdateWorkerCPU, stC4, wC4, stC4post, wC4post,
      defaultConfig])

/-! ### Claim C9 -/

/-- C9: exactly-once result delivery.  First, bookkeeping of one drain
tick: every queued job is, at the end of the tick, either still in the
queue or the subject of exactly one disposal (an expiry signal, a hand-off
to exactly one dispatch goroutine — which then writes exactly one of
`errorCh`/`responseCh` — or a requeue-failure signal); no job is disposed
of twice and none is lost.  Second, over a job's whole lifecycle, every
run of the ownership automaton starting at `queued` writes the single-shot
sink exactly as many times as it owes (`phaseW`): ending at `signaled`
means exactly one write, and `signaled` has no outgoing step, so the sink
is never written twice.  The caller's `select` on the two sink channels and
its own timeout then yields exactly one outcome per admitted job. -/
theorem C9_exactly_once_delivery (cfg : Config) :
    (∀ (q : List QueuedJob) (o : Orchestrator) (now : ℚ) (ro : Bool)
        (id : Nat),
      countQ (tryProcessQueue cfg o q now ro).2.1 id
          + countE (tryProcessQueue cfg o q now ro).2.2 id
        = countQ q id) ∧
    (∀ (n : Nat) (p : JobPhase), jobRun .queued n p → phaseW p + n = 1) ∧
    (∀ (e : Bool) (p : JobPhase), ¬ jobStep .signaled e p) := by
  refine ⟨?_, ?_, ?_⟩
  · intro q o now ro id
    exact tryProcessQueue_conservation cfg q o now ro id
  · intro n p h
    simpa [phaseW] using jobRun_weight h
  · intro e p h
    exact jobStep_signaled_terminal e p h

/-- C9 witness: the lifecycle part applied to the concrete expiry run
`queued → signaled` (one sink write), plus terminality at a concrete
step. -/
theorem C9_witness :
    phaseW .signaled + 1 = 1 ∧ ¬ jobStep .signaled true .queued :=
  ⟨(C9_exactly_once_delivery defaultConfig).2.1 1 .signaled
      (jobRun.step jobStep.expire jobRun.refl),
    (C9_exactly_once_delivery defaultConfig).2.2 true .queued⟩

end ContainerOrchestrator
